import Mathlib

/-!
Shallow embedding of the NEXO RRHH portal (`src/main.py`): the user/upload
data model, the authentication and role-authorization gate, and the upload
lifecycle (validation, stored-name generation, file write, metadata insert,
artifact download).  Library helpers the code calls (`werkzeug`'s
`check_password_hash`, `secure_filename`, `safe_join`, `posixpath.normpath`,
`pathlib.Path.suffix`, Python `str.strip`/`str.lower`/`str.split`) are
modelled as executable Lean functions following those libraries' semantics,
restricted to the posix/ASCII setting the application runs in.
-/

namespace Nexo

/-- `ROLES` (main.py line 29): the fixed role enumeration; the `users.role`
column carries a CHECK constraint restricting it to these four values. -/
inductive Role where
  | SUPERADMIN
  | ADMIN
  | RRHH
  | LECTOR
deriving DecidableEq, Repr

/-- Modelled from werkzeug's password hashing semantics: a salted hash is
abstracted as the plaintext it was derived from; `check_password_hash`
succeeds exactly when the candidate equals that plaintext, with no
normalization of either side. -/
structure PassHash where
  pw : String
deriving DecidableEq, Repr

/-- `werkzeug.security.generate_password_hash`. -/
def generate_password_hash (p : String) : PassHash := ⟨p⟩

/-- `werkzeug.security.check_password_hash`: exact (byte-for-byte) match
of the candidate password against the hashed one. -/
def check_password_hash (h : PassHash) (p : String) : Bool :=
  h.pw == p

/-- A row of the `users` table (main.py lines 48-55). -/
structure User where
  id : Nat
  username : String
  passHash : PassHash
  role : Role
  isActive : Bool
deriving DecidableEq, Repr

/-- A row of the `uploads` table (main.py lines 58-66). -/
structure Upload where
  id : Nat
  originalName : String
  storedName : String
  uploadedBy : Nat
  uploadedAt : String
  notes : String
deriving DecidableEq, Repr

/-- The relational store: the `users` and `uploads` tables. -/
structure DB where
  users : List User
  uploads : List Upload
deriving DecidableEq, Repr

/-- The server-side session: the `uid` binding set by login.  (The cosmetic
`theme` key is out of the modelled core.) -/
structure Session where
  uid : Option Nat
deriving DecidableEq, Repr

/-- Python truthiness of `session.get("uid")`: `None` and `0` are falsy
(`if not uid: ...`, main.py lines 83 and 92). -/
def pyTruthyUid : Option Nat → Bool
  | none => false
  | some n => n != 0

/-- A flash message: (message, category), as in `flash(msg, cat)`. -/
abbrev Flash := String × String

/-- The externally observable outcome of a request handler. -/
inductive HttpResult where
  /-- `redirect(url_for(target))` together with the flashes queued before it. -/
  | redirect (target : String) (flashes : List Flash)
  /-- A rendered HTML page (contents out of the modelled core). -/
  | page (name : String)
  /-- A 404 (`send_from_directory` on a rejected or missing name). -/
  | notFound
  /-- A file streamed back from the given filesystem path. -/
  | file (path : String)
  /-- An exception escaping the handler (no try/except in the route). -/
  | unhandled (msg : String)
deriving DecidableEq, Repr

/-- Failure outcome of `login_post` (main.py lines 349-350): the same flash
and redirect for unknown username, wrong password and inactive account. -/
def invalidCredentialsResponse : HttpResult :=
  .redirect "login" [("Usuario o contraseña incorrectos.", "error")]

/-- Success outcome of `login_post` (main.py lines 352-353). -/
def loginOkResponse : HttpResult :=
  .redirect "dashboard" [("Listo, entraste.", "ok")]

/-- Denial outcome of `require_roles` (main.py lines 103-104): a fixed
message and redirect, independent of which roles were required. -/
def permissionDeniedResponse : HttpResult :=
  .redirect "dashboard" [("No tenés permisos para entrar ahí.", "error")]

/-- `upload` with no file or an empty filename (main.py lines 456-457). -/
def noFileResponse : HttpResult :=
  .redirect "dashboard" [("No seleccionaste ningún archivo.", "error")]

/-- `upload` with a disallowed extension (main.py lines 461-462). -/
def unsupportedFormatResponse : HttpResult :=
  .redirect "dashboard" [("Formato no soportado. Subí .xls o .xlsx", "error")]

/-- Successful `upload` (main.py lines 479-480). -/
def uploadOkResponse : HttpResult :=
  .redirect "dashboard" [("Excel subido OK.", "ok")]

/-! ### Python string primitives -/

/-- The whitespace characters recognised by Python `str.strip()` / `str.split()`
(ASCII range; the unicode space classes are not exercised by the claims). -/
def isPySpace (c : Char) : Bool :=
  c == ' ' || c == '\t' || c == '\n' || c == '\r' || c == '\x0b' || c == '\x0c'

/-- `str.strip()` on a character list: drop leading and trailing whitespace. -/
def stripL (l : List Char) : List Char :=
  ((l.dropWhile isPySpace).reverse.dropWhile isPySpace).reverse

/-- Python `str.strip()` with no arguments. -/
def pyStrip (s : String) : String :=
  (stripL s.toList).asString

/-- Python `str.lower()` (ASCII letters; extensions are compared ASCII-wise). -/
def pyLower (s : String) : String :=
  (s.toList.map Char.toLower).asString

/-- Python `str.split('/')`: split at every slash, keeping empty parts. -/
def splitSlash : List Char → List (List Char)
  | [] => [[]]
  | c :: rest =>
    if c = '/' then [] :: splitSlash rest
    else
      match splitSlash rest with
      | s :: ss => (c :: s) :: ss
      | [] => [[c]]

/-- Python `str.split()` with no arguments: split on whitespace runs,
producing no empty words.  `cur` accumulates the current word reversed. -/
def splitWsAux : List Char → List Char → List (List Char)
  | [], cur => if cur = [] then [] else [cur.reverse]
  | c :: rest, cur =>
    if isPySpace c then
      if cur = [] then splitWsAux rest [] else cur.reverse :: splitWsAux rest []
    else splitWsAux rest (c :: cur)

/-! ### Auth gate (main.py lines 81-107, 339-358) -/

/-- `current_user()` (main.py lines 81-87): resolve the session's bound id
against the store on this call; `None` when the session has no truthy `uid`
or no active user row with that id exists. -/
def current_user (db : List User) (s : Session) : Option User :=
  match s.uid with
  | none => none
  | some uid =>
    if uid = 0 then none
    else db.find? (fun u => u.id == uid && u.isActive)

/-- Modelled from the spec: user deactivation, one of the "(unimplemented)
admin operations" of §3 absent from `src/` — clears the `is_active` flag of
the user with the given id in the `users` table. -/
def deactivate_user (db : List User) (uid : Nat) : List User :=
  db.map (fun u => if u.id = uid then { u with isActive := false } else u)

/-- `login_post` (main.py lines 339-353): strip the submitted username,
take the password verbatim, look up an active user by the stripped
username, compare the password against the stored hash; on success bind
the session to the user's id, otherwise flash one fixed error and leave
the session unchanged. -/
def login_post (db : List User) (usernameForm passwordForm : Option String)
    (s : Session) : HttpResult × Session :=
  let username := pyStrip (usernameForm.getD "")
  let password := passwordForm.getD ""
  match db.find? (fun u => u.username == username && u.isActive) with
  | none => (invalidCredentialsResponse, s)
  | some u =>
    if check_password_hash u.passHash password then
      (loginOkResponse, { uid := some u.id })
    else
      (invalidCredentialsResponse, s)

/-- `require_roles(*roles)` (main.py lines 97-107), applied to a wrapped
handler `inner`: deny with one fixed, role-independent response unless the
current user exists and its role is in the allow-list. -/
def require_roles (roles : List Role) (inner : User → HttpResult)
    (db : List User) (s : Session) : HttpResult :=
  match current_user db s with
  | none => permissionDeniedResponse
  | some u =>
    if u.role ∈ roles then inner u else permissionDeniedResponse

/-! ### Filename and path helpers

`pathlib.Path(...).suffix`, `werkzeug.utils.secure_filename`,
`posixpath.normpath` and `werkzeug.utils.safe_join` as called by the
upload/download routes, modelled on their posix/ASCII behaviour. -/

/-- `pathlib.PurePosixPath(s).name`: the last non-empty, non-`'.'`
slash-separated component (pathlib drops empty and `'.'` parts). -/
def pathName (l : List Char) : List Char :=
  ((splitSlash l).filter (fun seg => seg ≠ [] ∧ seg ≠ ['.'])).getLastD []

/-- `pathlib.Path(s).suffix` (main.py line 459): the final `'.'`-separated
extension of the last path component — empty unless the last dot sits
strictly inside the name (`0 < i < len(name) - 1` in pathlib). -/
def pySuffix (s : String) : String :=
  let name := pathName s.toList
  let after := name.reverse.takeWhile (fun c => !(c == '.'))
  if 0 < after.length ∧ after.length + 1 < name.length then
    ('.' :: after.reverse).asString
  else ""

/-- `ALLOWED_EXT` (main.py line 27). -/
def ALLOWED_EXT : List String := [".xlsx", ".xls"]

/-- The characters `werkzeug.utils.secure_filename` keeps
(`[A-Za-z0-9_.-]`). -/
def filenameOkChar (c : Char) : Bool :=
  c.isAlphanum || c == '_' || c == '.' || c == '-'

/-- Strip leading and trailing `'.'` and `'_'` (`.strip("._")`). -/
def stripDotUnderscore (l : List Char) : List Char :=
  let p := fun c => c == '.' || c == '_'
  ((l.dropWhile p).reverse.dropWhile p).reverse

/-- Modelled from `werkzeug.utils.secure_filename` (library dependency of
`src/main.py`): drop non-ASCII (the NFKD step is the identity on ASCII),
turn path separators into spaces, join whitespace-separated words with
`'_'`, drop characters outside `[A-Za-z0-9_.-]`, and strip leading/trailing
`'.'`/`'_'`.  The Windows reserved-device-name branch is skipped (posix). -/
def secure_filename (s : String) : String :=
  let l := s.toList.filter (fun c => c.toNat < 128)
  let l := l.map (fun c => if c = '/' then ' ' else c)
  let l := List.intercalate ['_'] (splitWsAux l [])
  (stripDotUnderscore (l.filter filenameOkChar)).asString

/-- One step of `posixpath.normpath`'s component scan; `acc` holds the kept
components in reverse.  A `'..'` is kept when it cannot cancel anything
(relative path with nothing kept, or only `'..'`s kept so far), otherwise
it pops the last kept component (or is dropped at the root). -/
def normComps (initSlash : Bool) : List (List Char) → List (List Char) → List (List Char)
  | acc, [] => acc.reverse
  | acc, c :: rest =>
    if c = [] ∨ c = ['.'] then normComps initSlash acc rest
    else if c ≠ ['.', '.'] ∨ (¬ initSlash ∧ acc = []) ∨ (acc ≠ [] ∧ acc.headD [] = ['.', '.']) then
      normComps initSlash (c :: acc) rest
    else
      match acc with
      | [] => normComps initSlash [] rest
      | _ :: t => normComps initSlash t rest

/-- `posixpath.normpath` (the double-leading-slash special case is collapsed
to a single slash; it does not affect `safe_join`'s accept/reject decision,
which only asks whether the result is absolute). -/
def normpath (s : String) : String :=
  let l := s.toList
  if l = [] then "."
  else
    let initSlash := l.headD ' ' == '/'
    let out := List.intercalate ['/'] (normComps initSlash [] (splitSlash l))
    let out := if initSlash then '/' :: out else out
    if out = [] then "." else out.asString

/-- `posixpath.join` for two components. -/
def posixJoin (a b : List Char) : List Char :=
  if b.headD ' ' = '/' then b
  else if a = [] ∨ a.getLast? = some '/' then a ++ b
  else a ++ '/' :: b

/-- Modelled from `werkzeug.utils.safe_join` (called by Flask's
`send_from_directory`, main.py line 486): normalize the name, reject it if
it is absolute, equals `'..'` or begins with `'../'` (`_os_alt_seps` is
empty on posix), else join it under the directory. -/
def safe_join (directory : String) (filename : String) : Option String :=
  let f := if filename ≠ "" then normpath filename else filename
  if f.toList.headD ' ' = '/' ∨ f = ".." ∨ f.toList.take 3 = ['.', '.', '/'] then
    none
  else
    some (posixJoin directory.toList f.toList).asString

/-! ### Upload store and filesystem -/

/-- Store-level failures the persistence layer can signal. -/
inductive StoreError where
  | foreignKeyViolation
deriving DecidableEq, Repr

deriving instance DecidableEq for Except

/-- `AUTOINCREMENT` id for the next `uploads` row (max used id + 1; no row
is ever deleted in this version). -/
def nextUploadId (db : DB) : Nat :=
  (db.uploads.map (fun up => up.id)).foldr Nat.max 0 + 1

/-- The `INSERT INTO uploads ...` of main.py lines 474-477 under sqlite's
`PRAGMA foreign_keys=ON` (set in `get_conn`, line 42): the whole insert
fails, leaving the store unchanged, when `uploaded_by` references no
`users` row; otherwise exactly one row is appended. -/
def recordUpload (db : DB) (originalName storedName : String) (uploaderId : Nat)
    (uploadedAt notes : String) : Except StoreError DB :=
  if db.users.any (fun u => u.id == uploaderId) then
    .ok { db with
          uploads := db.uploads ++
            [⟨nextUploadId db, originalName, storedName, uploaderId, uploadedAt, notes⟩] }
  else
    .error .foreignKeyViolation

/-- The uploads directory (`UPLOADS_DIR`, main.py line 21; the absolute
`BASE_DIR` prefix is abstracted away). -/
def uploadsDirStr : String := "data/uploads"

/-- The on-disk artifact store: path ↦ file contents (contents abstracted
to a tag).  `fsSave` is `f.save(path)` (open-for-write): it replaces any
existing file at the same path. -/
def fsSave (fs : List (String × Nat)) (path : String) (content : Nat) :
    List (String × Nat) :=
  (path, content) :: fs.filter (fun e => ¬ e.1 = path)

/-- Persistent state touched by the upload lifecycle: the store and the
uploads directory. -/
structure Sys where
  db : DB
  fs : List (String × Nat)
deriving DecidableEq, Repr

/-- An uploaded multipart file: the client-supplied filename and contents. -/
structure UploadedFile where
  filename : String
  content : Nat
deriving DecidableEq, Repr

/-- Side effects of a request, in execution order (for the crash-ordering
claim): a completed file write, and a committed metadata insert. -/
inductive Ev where
  | fileWrite (path : String)
  | rowInsert (storedName : String)
deriving DecidableEq, Repr

/-- Outcome of the upload route: response, resulting persistent state, and
the ordered side-effect trace. -/
structure UploadOutcome where
  resp : HttpResult
  sys : Sys
  events : List Ev
deriving DecidableEq, Repr

/-- Main.py lines 473-480: the metadata INSERT followed by the success
flash.  There is no try/except around the INSERT, so a store integrity
error escapes the handler unhandled. -/
def uploadInsertStep (db : DB) (original stored : String) (uploaderId : Nat)
    (uploadedAt notes : String) : HttpResult × DB × List Ev :=
  match recordUpload db original stored uploaderId uploadedAt notes with
  | .ok db2 => (uploadOkResponse, db2, [.rowInsert stored])
  | .error _ => (.unhandled "sqlite3.IntegrityError", db, [])

/-- The `/upload` POST handler (main.py lines 450-480), `login_required`
included: reject a missing/empty file, reject a disallowed extension,
otherwise write `stamp__securename` into the uploads directory and then
insert the metadata row.  `u = current_user()` is read at entry (line 453)
but first dereferenced at `int(u["id"])` (line 477), *after* the file
write, so a session bound to a missing/inactive user crashes there. -/
def upload_route (now : String) (sys : Sys) (s : Session)
    (fileForm : Option UploadedFile) (notesForm : Option String) : UploadOutcome :=
  if pyTruthyUid s.uid then
    let u? := current_user sys.db.users s
    match fileForm with
    | none => ⟨noFileResponse, sys, []⟩
    | some f =>
      if f.filename = "" then ⟨noFileResponse, sys, []⟩
      else
        let ext := pyLower (pySuffix f.filename)
        if ext ∈ ALLOWED_EXT then
          let stored := now ++ "__" ++ secure_filename f.filename
          let path := uploadsDirStr ++ "/" ++ stored
          let fs2 := fsSave sys.fs path f.content
          let notes := pyStrip (notesForm.getD "")
          match u? with
          | none =>
            ⟨.unhandled "TypeError: NoneType is not subscriptable",
             ⟨sys.db, fs2⟩, [.fileWrite path]⟩
          | some u =>
            let step := uploadInsertStep sys.db f.filename stored u.id now notes
            ⟨step.1, ⟨step.2.1, fs2⟩, .fileWrite path :: step.2.2⟩
        else ⟨unsupportedFormatResponse, sys, []⟩
  else ⟨.redirect "login" [], sys, []⟩

/-- The `/dashboard` GET handler (main.py lines 360-448), `login_required`
included: with a truthy session uid but no resolvable current user, line
386 (`u["role"]`) subscripts `None` and raises. -/
def dashboard_route (db : DB) (s : Session) : HttpResult :=
  if pyTruthyUid s.uid then
    match current_user db.users s with
    | none => .unhandled "TypeError: NoneType is not subscriptable"
    | some _ => .page "dashboard"
  else .redirect "login" []

/-- The `/users` GET handler (main.py lines 488-527): `login_required`,
then `require_roles("SUPERADMIN", "ADMIN")` around the roster page. -/
def users_route (db : DB) (s : Session) : HttpResult :=
  if pyTruthyUid s.uid then
    require_roles [.SUPERADMIN, .ADMIN] (fun _ => .page "users") db.users s
  else .redirect "login" []

/-- The `/uploads/<name>` GET handler (main.py lines 482-486),
`login_required` included: `send_from_directory(UPLOADS_DIR, name)`, i.e.
`safe_join` then an is-file check then streaming. -/
def download_upload (sys : Sys) (s : Session) (name : String) : HttpResult :=
  if pyTruthyUid s.uid then
    match safe_join uploadsDirStr name with
    | none => .notFound
    | some p =>
      match sys.fs.lookup p with
      | some _ => .file p
      | none => .notFound
  else .redirect "login" []

/-- Flask's route matching for `/uploads/<name>`: the default `string`
converter matches one non-empty path segment (`[^/]+`), so a path whose
remainder after `/uploads/` is empty or contains a slash matches no route
and is answered 404 with no handler run. -/
def uploadsRouteMatch (urlPath : String) : Option String :=
  let l := urlPath.toList
  if l.take 9 = "/uploads/".toList ∧ l.drop 9 ≠ [] ∧ '/' ∉ l.drop 9 then
    some (l.drop 9).asString
  else none

/-- A GET for an arbitrary `/uploads/...` URL: route matching, then the
download handler. -/
def handle_uploads_url (sys : Sys) (s : Session) (urlPath : String) : HttpResult :=
  match uploadsRouteMatch urlPath with
  | none => .notFound
  | some name => download_upload sys s name

/-- Substring test used to state the path-traversal claim. -/
def leadsWith : List Char → List Char → Bool
  | [], _ => true
  | _ :: _, [] => false
  | p :: ps, c :: cs => p == c && leadsWith ps cs

/-- `pat` occurs as a contiguous substring of the second list. -/
def hasSub (pat : List Char) : List Char → Bool
  | [] => leadsWith pat []
  | c :: rest => leadsWith pat (c :: rest) || hasSub pat rest

/-! ### Concrete fixtures used by witnesses and counterexamples -/

/-- The bootstrap SUPERADMIN account (main.py lines 70-74). -/
def adminUser : User := ⟨1, "admin", ⟨"admin123"⟩, .SUPERADMIN, true⟩

/-- The same account with `is_active = 0`. -/
def adminInactive : User := ⟨1, "admin", ⟨"admin123"⟩, .SUPERADMIN, false⟩

/-! ## Theorems -/

/-- Distinct usernames of distinct rows, in the convenient two-sided form. -/
theorem username_unique_pair {db : List User}
    (huniq : db.Pairwise (fun a b => a.username ≠ b.username)) :
    ∀ a ∈ db, ∀ b ∈ db, a.username = b.username → a = b := by
  intro a ha b hb hab
  by_contra hab2
  have hsymm : Symmetric (fun (a b : User) => a.username ≠ b.username) :=
    fun _ _ h e => h e.symm
  exact (huniq.forall hsymm ha hb hab2) hab

/--
C1 as frozen is refuted by whitespace stripping: submitting `" admin "`
with the correct password logs in and binds the session to user 1, although
no (active) user with exactly the username `" admin "` exists in the store.
-/
theorem login_exact_username_counterexample :
    (login_post [adminUser] (some " admin ") (some "admin123") ⟨none⟩).2.uid = some 1
    ∧ ∀ u ∈ [adminUser], ¬ (u.username = " admin " ∧ u.isActive = true) := by
  decide

/--
C1 (amended: the account lookup uses the whitespace-stripped submitted
username): `login_post` succeeds and binds the session to a user's id iff
an active user whose username equals the stripped submitted username exists
and its stored hash matches the verbatim submitted password; otherwise the
outcome is the single fixed `invalidCredentialsResponse` — identical for
unknown username, wrong password and inactive account — and the session is
left unchanged.
-/
theorem login_resolves_amended (db : List User) (unameF pwF : Option String)
    (s : Session) (huniq : db.Pairwise (fun a b => a.username ≠ b.username)) :
    (∀ uid2, login_post db unameF pwF s = (loginOkResponse, ⟨some uid2⟩) ↔
      ∃ u, u ∈ db ∧ u.username = pyStrip (unameF.getD "") ∧ u.isActive = true ∧
        check_password_hash u.passHash (pwF.getD "") = true ∧ u.id = uid2)
    ∧ ((¬ ∃ u, u ∈ db ∧ u.username = pyStrip (unameF.getD "") ∧ u.isActive = true ∧
        check_password_hash u.passHash (pwF.getD "") = true) →
      login_post db unameF pwF s = (invalidCredentialsResponse, s)) := by
  have huniq2 := username_unique_pair huniq
  cases hfind : db.find? (fun u => u.username == pyStrip (unameF.getD "") && u.isActive) with
  | none =>
    have hnone := List.find?_eq_none.mp hfind
    have hlp : login_post db unameF pwF s = (invalidCredentialsResponse, s) := by
      simp only [login_post, hfind]
    refine ⟨fun uid2 => ⟨fun h => ?_, fun h => ?_⟩, fun _ => hlp⟩
    · rw [hlp] at h
      have hfst : invalidCredentialsResponse = loginOkResponse := congrArg Prod.fst h
      exact absurd hfst (by decide)
    · obtain ⟨u, hu, hname, hact, -, -⟩ := h
      refine absurd ?_ (hnone u hu)
      simp [hname, hact]
    --
  | some u =>
    have hpu := List.find?_some hfind
    have hmem := List.mem_of_find?_eq_some hfind
    rw [Bool.and_eq_true] at hpu
    have hname : u.username = pyStrip (unameF.getD "") := by
      have := hpu.1
      rwa [beq_iff_eq] at this
    have hact : u.isActive = true := hpu.2
    cases hchk : check_password_hash u.passHash (pwF.getD "") with
    | true =>
      have hlp : login_post db unameF pwF s = (loginOkResponse, ⟨some u.id⟩) := by
        simp only [login_post, hfind, hchk, if_true]
      refine ⟨fun uid2 => ⟨fun h => ?_, fun h => ?_⟩, fun hno => absurd ⟨u, hmem, hname, hact, hchk⟩ hno⟩
      · rw [hlp] at h
        have hid := congrArg (fun r => r.2.uid) h
        simp only [Option.some.injEq] at hid
        exact ⟨u, hmem, hname, hact, hchk, hid⟩
      · obtain ⟨v, hv, hvname, hvact, hvchk, hvid⟩ := h
        have hvu : v = u := huniq2 v hv u hmem (hvname.trans hname.symm)
        rw [hlp, ← hvid, hvu]
    | false =>
      have hlp : login_post db unameF pwF s = (invalidCredentialsResponse, s) := by
        simp only [login_post, hfind, hchk, Bool.false_eq_true, if_false]
      refine ⟨fun uid2 => ⟨fun h => ?_, fun h => ?_⟩, fun _ => hlp⟩
      · rw [hlp] at h
        have hfst : invalidCredentialsResponse = loginOkResponse := congrArg Prod.fst h
        exact absurd hfst (by decide)
      · obtain ⟨v, hv, hvname, hvact, hvchk, hvid⟩ := h
        have hvu : v = u := huniq2 v hv u hmem (hvname.trans hname.symm)
        rw [hvu, hchk] at hvchk
        exact absurd hvchk (by simp)

/-- Witness for `login_resolves_amended` at the bootstrap store. -/
theorem login_resolves_amended_witness :
    login_post [adminUser] (some "admin") (some "admin123") ⟨none⟩ =
      (loginOkResponse, ⟨some 1⟩) :=
  ((login_resolves_amended [adminUser] (some "admin") (some "admin123") ⟨none⟩
      (by simp)).1 1).mpr ⟨adminUser, by decide, by decide, by decide, by decide, by decide⟩

/--
C3: `current_user` resolves the session's bound id against the store on the
call itself: it returns `none` exactly when the session has no bound id or
no active user row with that id exists in the (current) store, and
deactivating a user makes it return `none` for every session bound to that
id, with no logout involved.  (`hpos`: sqlite `AUTOINCREMENT` ids are
positive, so the falsy-`0` shortcut of line 83 coincides with "no row".)
-/
theorem current_user_per_request (db : List User) (s : Session)
    (hpos : ∀ u ∈ db, u.id ≠ 0) :
    (current_user db s = none ↔
      ¬ ∃ uid u, s.uid = some uid ∧ u ∈ db ∧ u.id = uid ∧ u.isActive = true)
    ∧ (∀ uid, s.uid = some uid → current_user (deactivate_user db uid) s = none) := by
  obtain ⟨su⟩ := s
  constructor
  · cases su with
    | none => simp [current_user]
    | some uid =>
      by_cases h0 : uid = 0
      · subst h0
        simp only [current_user, if_pos rfl]
        refine iff_of_true rfl ?_
        rintro ⟨uid2, u, hsome, hu, hid, -⟩
        obtain rfl : (0 : Nat) = uid2 := by injection hsome
        exact hpos u hu hid
      · simp only [current_user, if_neg h0]
        rw [List.find?_eq_none]
        constructor
        · intro hall
          rintro ⟨uid2, u, hsome, hu, hid, hact⟩
          obtain rfl : uid = uid2 := by injection hsome
          have := hall u hu
          simp [hid, hact] at this
        · intro hno u hu hp
          rw [Bool.and_eq_true, beq_iff_eq] at hp
          exact hno ⟨uid, u, rfl, hu, hp.1, hp.2⟩
  · intro uid hs
    simp only at hs
    subst hs
    by_cases h0 : uid = 0
    · simp [current_user, h0]
    · simp only [current_user, if_neg h0]
      rw [List.find?_eq_none]
      intro u hu hp
      rw [Bool.and_eq_true, beq_iff_eq] at hp
      obtain ⟨v, hv, hveq⟩ := List.mem_map.mp hu
      by_cases hvid : v.id = uid
      · rw [if_pos hvid] at hveq
        rw [← hveq] at hp
        simp at hp
      · rw [if_neg hvid] at hveq
        rw [← hveq] at hp
        exact hvid hp.1

/-- Witness for `current_user_per_request`: deactivating the only user kills
the still-bound session immediately. -/
theorem current_user_per_request_witness :
    current_user (deactivate_user [adminUser] 1) ⟨some 1⟩ = none :=
  (current_user_per_request [adminUser] ⟨some 1⟩ (by decide)).2 1 rfl

/--
C5: `require_roles` lets the wrapped handler run iff the current user
exists and its role is in the allow-list; for "no user" and for every role
outside the set it denies with `permissionDeniedResponse` — a constant that
does not depend on (and hence cannot reveal) the required role set — which
redirects to the dashboard, the safe default view.
-/
theorem require_roles_gate (roles : List Role) (inner : User → HttpResult)
    (db : List User) (s : Session)
    (hinner : ∀ u, inner u ≠ permissionDeniedResponse) :
    (require_roles roles inner db s ≠ permissionDeniedResponse ↔
      ∃ u, current_user db s = some u ∧ u.role ∈ roles)
    ∧ (∀ u, current_user db s = some u → u.role ∈ roles →
        require_roles roles inner db s = inner u)
    ∧ ((¬ ∃ u, current_user db s = some u ∧ u.role ∈ roles) →
        require_roles roles inner db s = permissionDeniedResponse) := by
  cases hcu : current_user db s with
  | none =>
    refine ⟨?_, ?_, fun _ => by simp [require_roles, hcu]⟩
    · simp [require_roles, hcu]
    · intro u hu _
      exact absurd hu (by simp)
  | some u =>
    by_cases hr : u.role ∈ roles
    · refine ⟨?_, ?_, ?_⟩
      · simp only [require_roles, hcu, if_pos hr]
        exact iff_of_true (hinner u) ⟨u, rfl, hr⟩
      · intro v hv hrv
        obtain rfl : u = v := by injection hv
        simp [require_roles, hcu, hr]
      · intro hno
        exact absurd ⟨u, rfl, hr⟩ hno
    · refine ⟨?_, ?_, fun _ => by simp [require_roles, hcu, hr]⟩
      · simp only [require_roles, hcu, if_neg hr]
        refine iff_of_false (by simp) ?_
        rintro ⟨v, hv, hrv⟩
        obtain rfl : u = v := by injection hv
        exact hr hrv
      · intro v hv hrv
        obtain rfl : u = v := by injection hv
        exact absurd hrv hr

/-- Witness for `require_roles_gate`: the `/users` allow-list admits the
bootstrap SUPERADMIN. -/
theorem require_roles_gate_witness :
    require_roles [Role.SUPERADMIN, Role.ADMIN] (fun _ => HttpResult.page "users")
      [adminUser] ⟨some 1⟩ = HttpResult.page "users" :=
  (require_roles_gate [Role.SUPERADMIN, Role.ADMIN] (fun _ => HttpResult.page "users")
      [adminUser] ⟨some 1⟩ (fun _ => by simp [permissionDeniedResponse])).2.1
    adminUser (by decide) (by decide)

/--
C6: the upload handler rejects any file whose (case-insensitively lowered)
extension is outside `{.xlsx, .xls}` with the UnsupportedFormat response,
leaving the filesystem and the store untouched and emitting no side effect.
-/
theorem upload_unsupported_ext (now : String) (sys : Sys) (s : Session)
    (f : UploadedFile) (notesForm : Option String)
    (hauth : pyTruthyUid s.uid = true) (hname : ¬ f.filename = "")
    (hext : pyLower (pySuffix f.filename) ∉ ALLOWED_EXT) :
    upload_route now sys s (some f) notesForm = ⟨unsupportedFormatResponse, sys, []⟩ := by
  simp only [upload_route, hauth, if_true]
  rw [if_neg hname, if_neg hext]

/-- Witness for `upload_unsupported_ext`: a `.pdf` upload is rejected. -/
theorem upload_unsupported_ext_witness :
    upload_route "20260101_120000" ⟨⟨[adminUser], []⟩, []⟩ ⟨some 1⟩
      (some ⟨"evil.pdf", 5⟩) none =
      ⟨unsupportedFormatResponse, ⟨⟨[adminUser], []⟩, []⟩, []⟩ :=
  upload_unsupported_ext "20260101_120000" ⟨⟨[adminUser], []⟩, []⟩ ⟨some 1⟩
    ⟨"evil.pdf", 5⟩ none (by decide) (by decide) (by decide)

/--
C2 fails on the code: `stored_name` is second-resolution-timestamp plus the
sanitized name with no disambiguation (main.py lines 466-467), so two
successful uploads of `report.xlsx` in the same second generate the *same*
stored name and the second `f.save` replaces the first artifact: after both
uploads the uploads directory holds exactly one file, with the second
upload's contents, while both metadata rows carry the identical stored
name.  (The spec itself mandates a disambiguation suffix, §4.5 step 4.)
-/
theorem upload_same_second_overwrites :
    (upload_route "20260101_120000" ⟨⟨[adminUser], []⟩, []⟩ ⟨some 1⟩
        (some ⟨"report.xlsx", 1⟩) none).resp = uploadOkResponse
    ∧ (upload_route "20260101_120000" ⟨⟨[adminUser], []⟩, []⟩ ⟨some 1⟩
        (some ⟨"report.xlsx", 1⟩) none).sys.fs =
        [("data/uploads/20260101_120000__report.xlsx", 1)]
    ∧ (upload_route "20260101_120000"
        (upload_route "20260101_120000" ⟨⟨[adminUser], []⟩, []⟩ ⟨some 1⟩
          (some ⟨"report.xlsx", 1⟩) none).sys
        ⟨some 1⟩ (some ⟨"report.xlsx", 2⟩) none).resp = uploadOkResponse
    ∧ (upload_route "20260101_120000"
        (upload_route "20260101_120000" ⟨⟨[adminUser], []⟩, []⟩ ⟨some 1⟩
          (some ⟨"report.xlsx", 1⟩) none).sys
        ⟨some 1⟩ (some ⟨"report.xlsx", 2⟩) none).sys.fs =
        [("data/uploads/20260101_120000__report.xlsx", 2)]
    ∧ ((upload_route "20260101_120000"
        (upload_route "20260101_120000" ⟨⟨[adminUser], []⟩, []⟩ ⟨some 1⟩
          (some ⟨"report.xlsx", 1⟩) none).sys
        ⟨some 1⟩ (some ⟨"report.xlsx", 2⟩) none).sys.db.uploads.map
          (fun up => up.storedName)) =
        ["20260101_120000__report.xlsx", "20260101_120000__report.xlsx"] := by
  decide

/--
C4 fails on the code: with a session bound to uid 1 while user 1 is
inactive (so `current_user` resolves to no user), `/dashboard` raises a
TypeError instead of redirecting (`u["role"]` on `None`, main.py line 386),
`/upload` writes the file and then raises (`int(u["id"])`, line 477),
`/uploads/<name>` happily streams the artifact, and `/users` redirects to
the *dashboard*, not the login entry point.  Only a session with no bound
id is redirected to login.
-/
theorem auth_gate_inactive_session_divergence :
    pyTruthyUid (Session.mk (some 1)).uid = true
    ∧ current_user [adminInactive] ⟨some 1⟩ = none
    ∧ dashboard_route ⟨[adminInactive], []⟩ ⟨some 1⟩ =
        .unhandled "TypeError: NoneType is not subscriptable"
    ∧ (upload_route "20260101_120000" ⟨⟨[adminInactive], []⟩, []⟩ ⟨some 1⟩
        (some ⟨"report.xlsx", 1⟩) none).resp =
        .unhandled "TypeError: NoneType is not subscriptable"
    ∧ (upload_route "20260101_120000" ⟨⟨[adminInactive], []⟩, []⟩ ⟨some 1⟩
        (some ⟨"report.xlsx", 1⟩) none).sys.fs =
        [("data/uploads/20260101_120000__report.xlsx", 1)]
    ∧ download_upload ⟨⟨[adminInactive], []⟩, [("data/uploads/x.xlsx", 7)]⟩
        ⟨some 1⟩ "x.xlsx" = .file "data/uploads/x.xlsx"
    ∧ users_route ⟨[adminInactive], []⟩ ⟨some 1⟩ = permissionDeniedResponse
    ∧ dashboard_route ⟨[adminInactive], []⟩ ⟨none⟩ = .redirect "login" [] := by
  decide

/--
C9: the store level behaves as claimed — an insert whose `uploaded_by`
references no user row fails with a foreign-key violation and leaves the
store unchanged (no partial row) — but the request boundary does not: the
handler block around the INSERT (main.py lines 473-480) has no try/except,
so the integrity error escapes as an unhandled fault instead of being
translated into a user-visible message.
-/
theorem record_upload_fk_unhandled :
    recordUpload ⟨[adminUser], []⟩ "a.xlsx" "20260101_120000__a.xlsx" 999
        "20260101_120000" "" = .error .foreignKeyViolation
    ∧ uploadInsertStep ⟨[adminUser], []⟩ "a.xlsx" "20260101_120000__a.xlsx" 999
        "20260101_120000" "" =
      (.unhandled "sqlite3.IntegrityError", ⟨[adminUser], []⟩, []) := by
  decide

/--
C7: in every run of the upload handler the side-effect trace puts the
completed file write strictly before the metadata insert: any prefix of
the trace (any crash point) containing the row insert already contains the
file write, and a successful run's trace is exactly
`[fileWrite, rowInsert]`.  Hence no reachable intermediate state has a
metadata row pointing to a missing file.
-/
theorem upload_write_precedes_insert (now : String) (sys : Sys) (s : Session)
    (fileForm : Option UploadedFile) (notesForm : Option String) :
    (∀ k nm, Ev.rowInsert nm ∈
        ((upload_route now sys s fileForm notesForm).events.take k) →
      ∃ p, Ev.fileWrite p ∈
        ((upload_route now sys s fileForm notesForm).events.take k))
    ∧ ((upload_route now sys s fileForm notesForm).resp = uploadOkResponse →
      ∃ p nm, (upload_route now sys s fileForm notesForm).events =
        [Ev.fileWrite p, Ev.rowInsert nm]) := by
  have hmaster : ∀ r : UploadOutcome, upload_route now sys s fileForm notesForm = r →
      (∃ p nm, r.events = [Ev.fileWrite p, Ev.rowInsert nm] ∧ r.resp = uploadOkResponse)
      ∨ ((∀ nm, Ev.rowInsert nm ∉ r.events) ∧ r.resp ≠ uploadOkResponse) := by
    intro r hr
    simp only [upload_route, uploadInsertStep] at hr
    split at hr
    · split at hr
      · subst hr; right; exact ⟨by simp, by simp [noFileResponse, unsupportedFormatResponse, uploadOkResponse]⟩
      · split at hr
        · subst hr; right; exact ⟨by simp, by simp [noFileResponse, unsupportedFormatResponse, uploadOkResponse]⟩
        · split at hr
          · split at hr
            · subst hr; right; exact ⟨by simp, by simp [noFileResponse, unsupportedFormatResponse, uploadOkResponse]⟩
            · split at hr
              · subst hr; left; exact ⟨_, _, rfl, rfl⟩
              · subst hr; right; exact ⟨by simp, by simp [noFileResponse, unsupportedFormatResponse, uploadOkResponse]⟩
          · subst hr; right; exact ⟨by simp, by simp [noFileResponse, unsupportedFormatResponse, uploadOkResponse]⟩
    · subst hr; right; exact ⟨by simp, by simp [noFileResponse, unsupportedFormatResponse, uploadOkResponse]⟩
  constructor
  · intro k nm hmem
    rcases hmaster _ rfl with ⟨p, n, hev, -⟩ | ⟨hno, -⟩
    · rw [hev] at hmem ⊢
      refine ⟨p, ?_⟩
      cases k with
      | zero => simp at hmem
      | succ k2 => simp [List.take_succ_cons]
    · exact absurd (List.mem_of_mem_take hmem) (hno nm)
  · intro hok
    rcases hmaster _ rfl with ⟨p, n, hev, -⟩ | ⟨-, hne⟩
    · exact ⟨p, n, hev⟩
    · exact absurd hok hne

/-- Witness for `upload_write_precedes_insert` on a concrete successful
upload: the crash-point prefix of length 2 containing the insert also
contains the file write. -/
theorem upload_write_precedes_insert_witness :
    ∃ p, Ev.fileWrite p ∈
      ((upload_route "20260101_120000" ⟨⟨[adminUser], []⟩, []⟩ ⟨some 1⟩
        (some ⟨"report.xlsx", 1⟩) none).events.take 2) :=
  (upload_write_precedes_insert "20260101_120000" ⟨⟨[adminUser], []⟩, []⟩ ⟨some 1⟩
      (some ⟨"report.xlsx", 1⟩) none).1 2 "20260101_120000__report.xlsx" (by decide)

/-- Padding a list with one space on each side does not change `stripL`. -/
theorem stripL_pad (l : List Char) :
    stripL ((' ' :: l) ++ [' ']) = stripL l := by
  unfold stripL
  have h1 : List.dropWhile isPySpace (' ' :: l) = List.dropWhile isPySpace l := by
    simp [List.dropWhile_cons, isPySpace]
  rw [List.dropWhile_append, h1]
  by_cases hd : (List.dropWhile isPySpace l).isEmpty
  · rw [if_pos hd]
    have hdl : List.dropWhile isPySpace l = [] := List.isEmpty_iff.mp hd
    have h2 : List.dropWhile isPySpace [' '] = [] := rfl
    rw [h2, hdl]
  · rw [if_neg hd, List.reverse_append]
    simp [List.dropWhile_cons, isPySpace]

/-- Padding a string with one space on each side does not change
`pyStrip`. -/
theorem pyStrip_pad (s : String) :
    pyStrip (" " ++ s ++ " ") = pyStrip s := by
  unfold pyStrip
  have h2 : (" " ++ s ++ " ").toList = ' ' :: (s.toList ++ [' ']) := by
    show ((" " ++ s) ++ " ").data = _
    rw [String.data_append, String.data_append]
    show (' ' :: s.data) ++ [' '] = _
    simp [String.toList]
  rw [h2]
  have h3 : (' ' :: (s.toList ++ [' '])) = (' ' :: s.toList) ++ [' '] :=
    (List.cons_append ' ' s.toList [' ']).symm
  rw [h3, stripL_pad]

/--
C10: at login the submitted username is whitespace-stripped before the
lookup while the password is compared verbatim: surrounding a username with
spaces changes nothing about the outcome, whereas surrounding the correct
password with spaces turns a successful login into the InvalidCredentials
outcome with the session left unchanged.
-/
theorem login_strip_behavior (db : List User) (s : Session) :
    (∀ uname pwF, login_post db (some (" " ++ uname ++ " ")) pwF s =
      login_post db (some uname) pwF s)
    ∧ (∀ unameF pw, (login_post db unameF (some pw) s).1 = loginOkResponse →
      login_post db unameF (some (" " ++ pw ++ " ")) s =
        (invalidCredentialsResponse, s)) := by
  constructor
  · intro uname pwF
    simp only [login_post, Option.getD_some]
    rw [pyStrip_pad]
  · intro unameF pw hok
    cases hfind : db.find? (fun u => u.username == pyStrip (unameF.getD "") && u.isActive) with
    | none =>
      have hlp : login_post db unameF (some pw) s = (invalidCredentialsResponse, s) := by
        simp only [login_post, Option.getD_some, hfind]
      rw [hlp] at hok
      have hfst : invalidCredentialsResponse = loginOkResponse := hok
      exact absurd hfst (by decide)
    | some u =>
      cases hchk : check_password_hash u.passHash pw with
      | false =>
        have hlp : login_post db unameF (some pw) s = (invalidCredentialsResponse, s) := by
          simp only [login_post, Option.getD_some, hfind, hchk, Bool.false_eq_true, if_false]
        rw [hlp] at hok
        have hfst : invalidCredentialsResponse = loginOkResponse := hok
        exact absurd hfst (by decide)
      | true =>
        have hpw : u.passHash.pw = pw := by
          unfold check_password_hash at hchk
          exact beq_iff_eq.mp hchk
        have hne2 : check_password_hash u.passHash (" " ++ pw ++ " ") = false := by
          unfold check_password_hash
          rw [hpw, beq_eq_false_iff_ne]
          intro he
          have hlen := congrArg String.length he
          rw [String.length_append, String.length_append] at hlen
          have h1 : (" " : String).length = 1 := rfl
          rw [h1] at hlen
          omega
        simp only [login_post, Option.getD_some, hfind, hne2, Bool.false_eq_true, if_false]

/-- Witness for `login_strip_behavior`: padding the correct bootstrap
password with spaces is rejected. -/
theorem login_strip_behavior_witness :
    login_post [adminUser] (some "admin") (some (" " ++ "admin123" ++ " ")) ⟨none⟩ =
      (invalidCredentialsResponse, ⟨none⟩) :=
  (login_strip_behavior [adminUser] ⟨none⟩).2 (some "admin") "admin123" (by decide)

/-- A list containing `"../"` as a substring contains a slash. -/
theorem hasSub_slash (l : List Char) :
    hasSub ['.', '.', '/'] l = true → '/' ∈ l := by
  induction l with
  | nil => intro h; exact absurd h (by decide)
  | cons c rest ih =>
    intro h
    simp only [hasSub, Bool.or_eq_true] at h
    rcases h with h | h
    · cases rest with
      | nil => simp [leadsWith] at h
      | cons c2 r2 =>
        cases r2 with
        | nil => simp [leadsWith] at h
        | cons c3 r3 =>
          simp only [leadsWith, Bool.and_eq_true, beq_iff_eq] at h
          obtain ⟨-, -, h3, -⟩ := h
          simp [← h3]
    · exact List.mem_cons_of_mem c (ih h)

/-- `str.split('/')` of a slash-free list is the singleton of that list. -/
theorem splitSlash_noslash (l : List Char) :
    '/' ∉ l → splitSlash l = [l] := by
  induction l with
  | nil => intro _; rfl
  | cons c rest ih =>
    intro h
    have hc : ¬ c = '/' := fun e => h (e ▸ List.mem_cons_self c rest)
    have hrest : '/' ∉ rest := fun e => h (List.mem_cons_of_mem c e)
    simp only [splitSlash, if_neg hc, ih hrest]

/-- `posixpath.normpath` is the identity on non-empty slash-free names. -/
theorem normpath_noslash (ld : List Char) (h1 : ld ≠ []) (h2 : '/' ∉ ld) :
    normpath ld.asString = ld.asString := by
  by_cases e1 : ld = ['.']
  · subst e1; decide
  have hround : (ld.asString).toList = ld := rfl
  have hinit : (ld.headD ' ' == '/') = false := by
    cases ld with
    | nil => exact absurd rfl h1
    | cons c t =>
      have hc : c ≠ '/' := fun h => h2 (h ▸ List.mem_cons_self c t)
      simpa using hc
  have hsplit : splitSlash ld = [ld] := splitSlash_noslash ld h2
  have hcomp : normComps false [] [ld] = [ld] := by
    simp only [normComps]
    rw [if_neg (not_or.mpr ⟨h1, e1⟩), if_pos]
    · simp [normComps]
    · exact Or.inr (Or.inl ⟨by simp, by trivial⟩)
  have hint : List.intercalate ['/'] [ld] = ld := by
    simp [List.intercalate]
  simp only [normpath, hround, hinit, hsplit, hcomp, hint, Bool.false_eq_true,
    if_false, if_neg h1]

/-- `safe_join` on a non-empty slash-free name other than `".."`: the name
is accepted and lands directly under the uploads directory. -/
theorem safe_join_noslash (ld : List Char) (h1 : ld ≠ []) (h2 : '/' ∉ ld)
    (h3 : ld ≠ ['.', '.']) :
    safe_join uploadsDirStr ld.asString =
      some (("data/uploads/".toList ++ ld).asString) := by
  have hne : ld.asString ≠ "" := by
    intro h
    exact h1 (congrArg String.toList h)
  have hnorm := normpath_noslash ld h1 h2
  simp only [safe_join, uploadsDirStr, if_pos hne, hnorm]
  have hround : (ld.asString).toList = ld := rfl
  rw [if_neg]
  · congr 1
    simp only [posixJoin, hround]
    rw [if_neg, if_neg]
    · have hsplit2 : ("data/uploads/".toList : List Char) =
          "data/uploads".toList ++ ['/'] := rfl
      rw [hsplit2, List.append_assoc]
      rfl
    · decide
    · cases ld with
      | nil => exact absurd rfl h1
      | cons c t =>
        have hc : c ≠ '/' := fun h => h2 (h ▸ List.mem_cons_self c t)
        simpa using hc
  · rw [hround]
    rintro (hh | hh | hh)
    · cases ld with
      | nil => exact h1 rfl
      | cons c t =>
        have hc : c ≠ '/' := fun h => h2 (h ▸ List.mem_cons_self c t)
        exact hc (by simpa using hh)
    · apply h3
      have := congrArg String.toList hh
      exact this
    · apply h2
      have hmem : '/' ∈ ld.take 3 := by
        rw [hh]
        simp
      exact List.mem_of_mem_take hmem

/--
C8: the artifact fetch resolves strictly inside the uploads storage root.
(1) Any `/uploads/...` URL whose remainder contains the traversal sequence
`../` matches no route — its segment would contain a slash, which the
route converter refuses — so it is answered without any filesystem access.
(2) Whenever the handler serves a file, the served path is the storage
root plus a single slash-free path segment different from `".."`: no file
outside the storage root is ever served.
-/
theorem download_traversal_safe :
    (∀ tail : String, hasSub ['.', '.', '/'] tail.toList = true →
      uploadsRouteMatch ("/uploads/" ++ tail) = none)
    ∧ (∀ sys s url p, handle_uploads_url sys s url = .file p →
      ∃ base : List Char, p.toList = "data/uploads/".toList ++ base ∧
        '/' ∉ base ∧ base ≠ ['.', '.']) := by
  constructor
  · intro tail hsub
    have hslash : '/' ∈ tail.toList := hasSub_slash tail.toList hsub
    have hlist : ("/uploads/" ++ tail).toList = "/uploads/".toList ++ tail.toList :=
      String.data_append "/uploads/" tail
    have hdrop : ("/uploads/".toList ++ tail.toList).drop 9 = tail.toList := by
      have h9 : ("/uploads/".toList).length = 9 := rfl
      rw [← h9, List.drop_left]
    simp only [uploadsRouteMatch, hlist]
    rw [if_neg]
    rintro ⟨-, -, hnosl⟩
    rw [hdrop] at hnosl
    exact hnosl hslash
  · intro sys s url p hfile
    cases hmatch : uploadsRouteMatch url with
    | none =>
      rw [handle_uploads_url, hmatch] at hfile
      have hnf : HttpResult.notFound = HttpResult.file p := hfile
      exact absurd hnf (by simp)
    | some name =>
      have hstep : download_upload sys s name = HttpResult.file p := by
        rw [handle_uploads_url, hmatch] at hfile
        exact hfile
      clear hfile
      have hname : ∃ ld : List Char, name = ld.asString ∧ ld ≠ [] ∧ '/' ∉ ld := by
        unfold uploadsRouteMatch at hmatch
        by_cases hc : (url.toList.take 9 = "/uploads/".toList ∧
            url.toList.drop 9 ≠ [] ∧ '/' ∉ url.toList.drop 9)
        · rw [if_pos hc] at hmatch
          injection hmatch with hm
          exact ⟨url.toList.drop 9, hm.symm, hc.2.1, hc.2.2⟩
        · rw [if_neg hc] at hmatch
          exact absurd hmatch (by simp)
      obtain ⟨ld, rfl, hldne, hldsl⟩ := hname
      unfold download_upload at hstep
      by_cases hauth : pyTruthyUid s.uid = true
      · rw [if_pos hauth] at hstep
        by_cases e2 : ld = ['.', '.']
        · subst e2
          have hsj : safe_join uploadsDirStr (['.', '.'].asString) = none := by decide
          rw [hsj] at hstep
          have hnf : HttpResult.notFound = HttpResult.file p := hstep
          exact absurd hnf (by simp)
        · have hsj := safe_join_noslash ld hldne hldsl e2
          rw [hsj] at hstep
          have hstep2 :
              (match sys.fs.lookup (("data/uploads/".toList ++ ld).asString) with
                | some _ => HttpResult.file (("data/uploads/".toList ++ ld).asString)
                | none => HttpResult.notFound) = HttpResult.file p := hstep
          cases hlook : sys.fs.lookup (("data/uploads/".toList ++ ld).asString) with
          | none =>
            rw [hlook] at hstep2
            have hnf : HttpResult.notFound = HttpResult.file p := hstep2
            exact absurd hnf (by simp)
          | some c =>
            rw [hlook] at hstep2
            have hp : (("data/uploads/".toList ++ ld).asString) = p := by
              injection hstep2
            refine ⟨ld, ?_, hldsl, e2⟩
            rw [← hp]
            rfl
      · rw [if_neg hauth] at hstep
        have hnf : HttpResult.redirect "login" [] = HttpResult.file p := hstep
        exact absurd hnf (by simp)

/-- Witness for `download_traversal_safe`: a traversal URL matches no
route, and a served concrete artifact lies inside the storage root. -/
theorem download_traversal_safe_witness :
    uploadsRouteMatch ("/uploads/" ++ "../../etc/passwd") = none
    ∧ ∃ base : List Char,
        ("data/uploads/x.xlsx" : String).toList = "data/uploads/".toList ++ base ∧
        '/' ∉ base ∧ base ≠ ['.', '.'] :=
  ⟨download_traversal_safe.1 "../../etc/passwd" (by decide),
   download_traversal_safe.2 ⟨⟨[adminUser], []⟩, [("data/uploads/x.xlsx", 7)]⟩
     ⟨some 1⟩ "/uploads/x.xlsx" "data/uploads/x.xlsx" (by decide)⟩

end Nexo
